import Mathlib

/-!
A shallow embedding of the job scheduling and execution lifecycle core of the
teraslice cluster control plane (jobs service + jobs storage module), together
with proofs of the lifecycle properties stated in its specification.

The stateful javascript source is embedded as explicit state passing: the two
document stores are lists of records, the in-memory admission queues are lists
(front at the head), fallible promise chains become `Except`, and the external
collaborators (cluster service, asset resolver, job validator) are passed in as
explicit oracles/functions, mirroring the closure-captured capabilities of the
source.
-/

namespace Teraslice

/-- The execution status set, in the exact order of the source's
`VALID_STATUS` array: the first seven are the active statuses, the rest are
finished statuses. -/
inductive Status where
  | pending
  | scheduling
  | initializing
  | running
  | failing
  | paused
  | moderator_paused
  | completed
  | stopped
  | rejected
  | failed
  | terminated
deriving DecidableEq, Repr

/-- `VALID_STATUS`, in source order. The source comment warns that
`getLatestExecution` expects the first 7 values to be active states and the
rest to be finished states. -/
def VALID_STATUS : List Status :=
  [.pending, .scheduling, .initializing, .running, .failing, .paused,
   .moderator_paused, .completed, .stopped, .rejected, .failed, .terminated]

/-- Job control commands: the keys of the source's `STATE_MAPPING` and
`MESSAGE_MAPPING` objects. -/
inductive Cmd where
  | stop
  | pause
  | resume
  | moderator_paused
  | restart
  | terminated
deriving DecidableEq, Repr

/-- `STATE_MAPPING`: maps a job notification to the execution status written
once the cluster has been notified. `restart` and `terminated` have no entry
(a javascript lookup yields `undefined`, modelled as `none`). -/
def STATE_MAPPING : Cmd → Option Status
  | .stop => some .stopped
  | .pause => some .paused
  | .resume => some .running
  | .moderator_paused => some .moderator_paused
  | .restart => none
  | .terminated => none

/-- `MESSAGE_MAPPING`: maps a job control command to the cluster control
message fanned out to nodes. -/
def MESSAGE_MAPPING : Cmd → Option String
  | .pause => some "cluster:job:pause"
  | .resume => some "cluster:job:resume"
  | .restart => some "cluster:job:restart"
  | .stop => some "cluster:job:stop"
  | .terminated => some "cluster:job:stop"
  | .moderator_paused => some "cluster:job:pause"

/-- A persisted record. The source keeps plain javascript objects for both
jobs and execution contexts (`_context` distinguishes them); fields absent on
an object are modelled with `Option`/defaults. -/
structure Rec where
  job_id : Option Nat := none
  ex_id : Option Nat := none
  context : String := ""
  name : String := ""
  workers : Nat := 0
  lifecycle : String := ""
  assets : Option (List String) := none
  moderator : Option (List (String × List String)) := none
  status : Option Status := none
  recover : Bool := false
  created : Nat := 0
  updated : Nat := 0
deriving DecidableEq, Repr

/-- `ex_store.get(ex_id)` / `job_store.get(job_id)`: lookup by id. -/
def exGet (store : List Rec) (i : Nat) : Option Rec :=
  store.find? (fun r => r.ex_id == some i)

def jobGet (store : List Rec) (i : Nat) : Option Rec :=
  store.find? (fun r => r.job_id == some i)

/-- The jobs-storage `create` for `jobType = 'job'`: assigns `job_id`,
`_context`, `_created`, `_updated` on the record. -/
def jobCreate (r : Rec) (freshId : Nat) (now : Nat) : Rec :=
  { r with job_id := some freshId, context := "job", created := now, updated := now }

/-- The jobs-storage `create` for `jobType = 'ex'`: assigns `ex_id`,
`_context`, `_created`, `_updated` on the record. -/
def exCreate (r : Rec) (freshId : Nat) (now : Nat) : Rec :=
  { r with ex_id := some freshId, context := "ex", created := now, updated := now }

/-- The merge performed by `ex_store.update(ex_id, {_status: st})` on one
stored record: overwrite `_status` and bump `_updated` when the id matches. -/
def updStatus (i : Nat) (st : Status) (now : Nat) (r : Rec) : Rec :=
  if r.ex_id == some i then { r with status := some st, updated := now } else r

/-- `ex_store.update(ex_id, {_status: st})`: merges the status into the stored
record and bumps `_updated`; the backend rejects when the record is absent. -/
def exUpdateStatus (store : List Rec) (i : Nat) (st : Status) (now : Nat) :
    Except String (List Rec) :=
  if store.any (fun r => r.ex_id == some i) then
    .ok (store.map (updStatus i st now))
  else
    .error "record not found"

/-- `_setStatus(job_spec, status)`: checks membership in `VALID_STATUS`
(`undefined`, i.e. `none`, is rejected with `Invalid Job status`), then merges
`{_status: status}` into the stored record keyed by `job_spec.ex_id`. -/
def setStatus (store : List Rec) (spec : Rec) (status : Option Status) (now : Nat) :
    Except String (List Rec) :=
  match status with
  | some st =>
    if VALID_STATUS.contains st then
      match spec.ex_id with
      | some i => exUpdateStatus store i st now
      | none => .error "record not found"
    else
      .error "Invalid Job status"
  | none => .error "Invalid Job status: undefined"

/-- The status of the stored record with the given `ex_id`. -/
def statusOf (store : List Rec) (i : Nat) : Option Status :=
  (exGet store i).bind (fun r => r.status)

/-- Modelled from the spec: `isActive(s)` is true iff `s` is among the first
seven (active) statuses. The source has no function of this name; it encodes
the classification in the `VALID_STATUS` ordering comment and in the
`slice(0,7)` / `slice(7)` usages compared against below. -/
def isActive (s : Status) : Bool :=
  s == .pending || s == .scheduling || s == .initializing || s == .running ||
  s == .failing || s == .paused || s == .moderator_paused

/-- The per-status filter encoded by `getLatestExecution`'s query when
`checkIfActive` is set: the query keeps executions whose status is NOT one of
`VALID_STATUS.slice(7)`. -/
def getLatestExecutionActiveFilter (s : Status) : Bool :=
  !((VALID_STATUS.drop 7).any (fun t => t == s))

/-- The per-status disjunction built by `shutdown`'s query: the statuses of
`VALID_STATUS.slice(0, 7)` joined with OR. -/
def shutdownActiveQuery (s : Status) : Bool :=
  (VALID_STATUS.take 7).any (fun t => t == s)

/-- Claim C4: `isActive(s)` is true exactly for the first seven statuses
pending, scheduling, initializing, running, failing, paused, moderator_paused,
and false for completed, stopped, rejected, failed, terminated; and this
first-seven classification is the one used in `getLatestExecution`'s active
filter (NOT over `VALID_STATUS.slice(7)`) and in `shutdown`'s query for active
executions (OR over `VALID_STATUS.slice(0,7)`). -/
theorem isActive_first_seven_classification :
    ∀ s : Status,
      (isActive s = true ↔
        (s = .pending ∨ s = .scheduling ∨ s = .initializing ∨ s = .running ∨
         s = .failing ∨ s = .paused ∨ s = .moderator_paused)) ∧
      (isActive s = false ↔
        (s = .completed ∨ s = .stopped ∨ s = .rejected ∨ s = .failed ∨
         s = .terminated)) ∧
      isActive s = getLatestExecutionActiveFilter s ∧
      isActive s = shutdownActiveQuery s := by
  intro s
  cases s <;> exact ⟨by decide, by decide, by decide, by decide⟩

/-- The cluster-service view needed by `_notifyCluster` for one execution:
`findNodesForJob(ex_id, slicerOnly)` yields `slicerNodes` when `slicerOnly`,
otherwise `allNodes`. Each node is `(node_id, whether notifyNode succeeds)`. -/
structure ClusterEnv where
  allNodes : List (Nat × Bool)
  slicerNodes : List (Nat × Bool)
deriving Repr

/-- `_notifyCluster` restricts to the slicer node only for `pause`, `resume`
and `moderator_paused`. -/
def slicerOnlyFor (notice : Cmd) : Bool :=
  notice == .pause || notice == .resume || notice == .moderator_paused

def findNodesForJob (env : ClusterEnv) (slicerOnly : Bool) : List (Nat × Bool) :=
  if slicerOnly then env.slicerNodes else env.allNodes

/-- `_notifyCluster(ex_id, notice)`: throws when the notice has no entry in
`MESSAGE_MAPPING`; otherwise sends the mapped message to every relevant node
(all the `notifyNode` calls are issued before `Promise.all` settles, so the
sent list is the same whether or not some node fails) and resolves iff every
node notification succeeded. Returns `(messages sent, outcome)`. -/
def notifyCluster (env : ClusterEnv) (notice : Cmd) :
    List (Nat × String) × Except String Unit :=
  match MESSAGE_MAPPING notice with
  | none => ([], .error "JobsService: invalid notification message")
  | some msg =>
    let nodes := findNodesForJob env (slicerOnlyFor notice)
    let sent := nodes.map (fun n => (n.1, msg))
    if nodes.all (fun n => n.2) then (sent, .ok ()) else (sent, .error "could not notify cluster")

/-- `_signalJobStateChange(ex_id, notice, state)`: notify the cluster first;
only if every node notification succeeded, fetch the execution from the store
and write the new status via `_setStatus`, resolving with `state`. Any failure
is re-rejected to the caller. Returns `(store, messages sent, outcome)`. -/
def signalJobStateChange (store : List Rec) (env : ClusterEnv) (exId : Nat)
    (notice : Cmd) (state : Option Status) (now : Nat) :
    List Rec × List (Nat × String) × Except String (Option Status) :=
  let sentRes := notifyCluster env notice
  match sentRes.2 with
  | .error e => (store, sentRes.1, .error e)
  | .ok _ =>
    match exGet store exId with
    | none => (store, sentRes.1, .error "record not found")
    | some spec =>
      match setStatus store spec state now with
      | .error e => (store, sentRes.1, .error e)
      | .ok store2 => (store2, sentRes.1, .ok state)

/-- `notify(ex_id, state)`: looks the command up in `STATE_MAPPING` and
delegates to `_signalJobStateChange`; errors are re-rejected to the caller. -/
def notify (store : List Rec) (env : ClusterEnv) (exId : Nat) (cmd : Cmd) (now : Nat) :
    List Rec × List (Nat × String) × Except String (Option Status) :=
  signalJobStateChange store env exId cmd (STATE_MAPPING cmd) now

theorem exGet_eq_some (store : List Rec) (i : Nat) (r : Rec)
    (h : exGet store i = some r) : r ∈ store ∧ r.ex_id = some i := by
  refine ⟨List.mem_of_find?_eq_some h, ?_⟩
  have hp := List.find?_some h
  simpa using hp

theorem any_exId_of_exGet (store : List Rec) (i : Nat) (r : Rec)
    (h : exGet store i = some r) : store.any (fun r => r.ex_id == some i) = true := by
  obtain ⟨hmem, hid⟩ := exGet_eq_some store i r h
  simp only [List.any_eq_true]
  exact ⟨r, hmem, by simp [hid]⟩

/-- Claim C3: for every command in the notify set (those with a
`STATE_MAPPING` entry) and an execution present in the store, `notify` first
sends the mapped cluster message to the relevant nodes; if any node
notification fails, the aggregated failure is surfaced and the stored
`_status` is unchanged; only when all notifications succeed is the mapped
status written (and only to this execution's record), and that new status is
returned to the caller. -/
theorem notify_sends_then_writes_status (store : List Rec) (env : ClusterEnv)
    (exId : Nat) (cmd : Cmd) (st : Status) (spec : Rec) (now : Nat)
    (hcmd : STATE_MAPPING cmd = some st)
    (hget : exGet store exId = some spec) :
    (∃ msg, MESSAGE_MAPPING cmd = some msg ∧
      (notify store env exId cmd now).2.1 =
        (findNodesForJob env (slicerOnlyFor cmd)).map (fun n => (n.1, msg))) ∧
    ((findNodesForJob env (slicerOnlyFor cmd)).all (fun n => n.2) = false →
      (∃ e, (notify store env exId cmd now).2.2 = .error e) ∧
      (notify store env exId cmd now).1 = store) ∧
    ((findNodesForJob env (slicerOnlyFor cmd)).all (fun n => n.2) = true →
      (notify store env exId cmd now).1 = store.map (updStatus exId st now) ∧
      (notify store env exId cmd now).2.2 = .ok (some st)) := by
  have hid : spec.ex_id = some exId := (exGet_eq_some store exId spec hget).2
  have hany : store.any (fun r => r.ex_id == some exId) = true :=
    any_exId_of_exGet store exId spec hget
  have hmsg : ∃ msg, MESSAGE_MAPPING cmd = some msg := by
    cases cmd <;> simp_all [STATE_MAPPING, MESSAGE_MAPPING]
  obtain ⟨msg, hmsg⟩ := hmsg
  have hvalid : st ∈ VALID_STATUS := by
    cases st <;> decide
  constructor
  · refine ⟨msg, hmsg, ?_⟩
    by_cases hall : (findNodesForJob env (slicerOnlyFor cmd)).all (fun n => n.2) = true
    · simp [notify, signalJobStateChange, notifyCluster, hmsg, hall, hcmd, hget,
        setStatus, hvalid, hid, exUpdateStatus, hany]
    · simp [notify, signalJobStateChange, notifyCluster, hmsg,
        Bool.eq_false_iff.mpr hall, hcmd]
  constructor
  · intro hall
    simp [notify, signalJobStateChange, notifyCluster, hmsg, hall, hcmd]
  · intro hall
    simp [notify, signalJobStateChange, notifyCluster, hmsg, hall, hcmd, hget,
      setStatus, hvalid, hid, exUpdateStatus, hany]

/-- Witness for C3 at a concrete input: one stored execution, command `pause`,
one slicer node that acknowledges; after `notify` the stored status is
`paused` and `paused` is returned. -/
theorem notify_sends_then_writes_status_witness :
    (∃ msg, MESSAGE_MAPPING Cmd.pause = some msg ∧
      (notify [{ ex_id := some 1, status := some Status.running :  Rec}]
          ⟨[(7, true), (8, true)], [(7, true)]⟩ 1 Cmd.pause 5).2.1 =
        (findNodesForJob ⟨[(7, true), (8, true)], [(7, true)]⟩
          (slicerOnlyFor Cmd.pause)).map (fun n => (n.1, msg))) ∧
    ((findNodesForJob ⟨[(7, true), (8, true)], [(7, true)]⟩
        (slicerOnlyFor Cmd.pause)).all (fun n => n.2) = false →
      (∃ e, (notify [{ ex_id := some 1, status := some Status.running : Rec }]
          ⟨[(7, true), (8, true)], [(7, true)]⟩ 1 Cmd.pause 5).2.2 = .error e) ∧
      (notify [{ ex_id := some 1, status := some Status.running : Rec }]
          ⟨[(7, true), (8, true)], [(7, true)]⟩ 1 Cmd.pause 5).1 =
        [{ ex_id := some 1, status := some Status.running : Rec }]) ∧
    ((findNodesForJob ⟨[(7, true), (8, true)], [(7, true)]⟩
        (slicerOnlyFor Cmd.pause)).all (fun n => n.2) = true →
      (notify [{ ex_id := some 1, status := some Status.running : Rec }]
          ⟨[(7, true), (8, true)], [(7, true)]⟩ 1 Cmd.pause 5).1 =
        [{ ex_id := some 1, status := some Status.running : Rec }].map
          (updStatus 1 Status.paused 5) ∧
      (notify [{ ex_id := some 1, status := some Status.running : Rec }]
          ⟨[(7, true), (8, true)], [(7, true)]⟩ 1 Cmd.pause 5).2.2 =
        .ok (some Status.paused)) :=
  notify_sends_then_writes_status
    [{ ex_id := some 1, status := some Status.running : Rec }]
    ⟨[(7, true), (8, true)], [(7, true)]⟩ 1 Cmd.pause Status.paused
    { ex_id := some 1, status := some Status.running : Rec } 5 rfl rfl

/-- Claim C10: `notify(ex_id, restart)` passes the `_notifyCluster` command
check (`restart` is in `MESSAGE_MAPPING`) and sends `cluster:job:restart` to
all nodes running the execution; but `restart` has no `STATE_MAPPING` entry,
so the subsequent `_setStatus` rejects with an invalid-status error. The call
therefore rejects after the restart messages were already sent, and the stored
`_status` is unchanged. -/
theorem notify_restart_sends_then_rejects (store : List Rec) (env : ClusterEnv)
    (exId : Nat) (spec : Rec) (now : Nat)
    (hget : exGet store exId = some spec)
    (hok : ∀ n ∈ env.allNodes, n.2 = true) :
    STATE_MAPPING Cmd.restart = none ∧
    MESSAGE_MAPPING Cmd.restart = some "cluster:job:restart" ∧
    (notify store env exId Cmd.restart now).2.1 =
      env.allNodes.map (fun n => (n.1, "cluster:job:restart")) ∧
    (notify store env exId Cmd.restart now).2.2 =
      .error "Invalid Job status: undefined" ∧
    (notify store env exId Cmd.restart now).1 = store := by
  have hall : env.allNodes.all (fun n => n.2) = true := by
    simp only [List.all_eq_true]
    intro n hn
    simpa using hok n hn
  refine ⟨rfl, rfl, ?_, ?_, ?_⟩ <;>
    simp [notify, signalJobStateChange, notifyCluster, MESSAGE_MAPPING,
      STATE_MAPPING, slicerOnlyFor, findNodesForJob, hall, hget, setStatus]

/-- Witness for C10 at a concrete input: a stored execution with status
`running` and two acknowledging nodes; the restart messages go out to both
nodes, the call rejects with the invalid-status error, and the store is
untouched. -/
theorem notify_restart_sends_then_rejects_witness :
    STATE_MAPPING Cmd.restart = none ∧
    MESSAGE_MAPPING Cmd.restart = some "cluster:job:restart" ∧
    (notify [{ ex_id := some 3, status := some Status.running : Rec }]
        ⟨[(1, true), (2, true)], []⟩ 3 Cmd.restart 9).2.1 =
      [(1, true), (2, true)].map (fun n => (n.1, "cluster:job:restart")) ∧
    (notify [{ ex_id := some 3, status := some Status.running : Rec }]
        ⟨[(1, true), (2, true)], []⟩ 3 Cmd.restart 9).2.2 =
      .error "Invalid Job status: undefined" ∧
    (notify [{ ex_id := some 3, status := some Status.running : Rec }]
        ⟨[(1, true), (2, true)], []⟩ 3 Cmd.restart 9).1 =
      [{ ex_id := some 3, status := some Status.running : Rec }] :=
  notify_restart_sends_then_rejects
    [{ ex_id := some 3, status := some Status.running : Rec }]
    ⟨[(1, true), (2, true)], []⟩ 3
    { ex_id := some 3, status := some Status.running : Rec } 9 rfl
    (by intro n hn; simp at hn; rcases hn with h | h <;> simp [h])

/-- One entry of the cluster moderator's reply. -/
structure ModEntry where
  canRun : Bool
deriving DecidableEq, Repr

/-- The value `checkModerator` resolves with: the literal boolean `true` when
the job declares no moderator dependencies, otherwise the entry array returned
by `cluster_service.checkModerator`. -/
inductive ModResp where
  | boolTrue
  | entries (l : List ModEntry)
deriving DecidableEq, Repr

/-- `connectionDefaults(array)`: ensure the process-wide state connection is
listed under the `elasticsearch` type, appending it to an existing
`elasticsearch` entry when missing, or appending a whole entry when no
`elasticsearch` pair exists. -/
def connectionDefaults (esConn : String) (array : List (String × List String)) :
    List (String × List String) :=
  let mapped := array.map (fun conn =>
    if conn.1 == "elasticsearch" && !(conn.2.contains esConn)
    then (conn.1, conn.2 ++ [esConn]) else conn)
  if array.any (fun conn => conn.1 == "elasticsearch") then mapped
  else mapped ++ [("elasticsearch", [esConn])]

/-- `checkModerator(job)`: resolve `true` immediately when the job has no
`moderator` map; otherwise consult `cluster_service.checkModerator` on the
defaulted connection list. The first component records whether the cluster
service was consulted. -/
def checkModerator (esConn : String)
    (clusterCheck : List (String × List String) → List ModEntry) (job : Rec) :
    Bool × ModResp :=
  match job.moderator with
  | none => (false, .boolTrue)
  | some m => (true, .entries (clusterCheck (connectionDefaults esConn m)))

/-- `_.every(moderatorResponse, db => db.canRun === true)`: vacuously true on
the boolean `true` response, otherwise all entries must report `canRun`. -/
def everyCanRun : ModResp → Bool
  | .boolTrue => true
  | .entries l => l.all (fun db => db.canRun)

/-- The in-memory world of the jobs service: the two persisted collections and
the two non-durable admission queues (front at the head of the list), plus the
logger output. -/
structure CoreState where
  jobStore : List Rec
  exStore : List Rec
  pendingQ : List Rec
  heldQ : List Rec
  log : List String := []
deriving Repr

/-- `createExecutionContext(job)`: persist an execution record, write status
`pending` to the store (the in-memory object is not mutated), consult the
moderator gate, and enqueue the in-memory execution into the `pending` queue
when every moderator entry can run, otherwise into the `moderatorPaused`
queue. Resolves with `{job_id: ex.job_id}`. -/
def createExecutionContext (s : CoreState) (job : Rec) (freshExId : Nat)
    (esConn : String)
    (clusterCheck : List (String × List String) → List ModEntry) (now : Nat) :
    CoreState × Except String (Option Nat) :=
  let ex := exCreate job freshExId now
  let store1 := s.exStore ++ [ex]
  match setStatus store1 ex (some .pending) now with
  | .error e => ({ s with exStore := store1, log := s.log ++ [e] }, .error e)
  | .ok store2 =>
    let canRun := everyCanRun (checkModerator esConn clusterCheck job).2
    if canRun then
      ({ s with exStore := store2, pendingQ := s.pendingQ ++ [ex] }, .ok ex.job_id)
    else
      ({ s with exStore := store2, heldQ := s.heldQ ++ [ex] }, .ok ex.job_id)

/-- The asset-resolution reply delivered on the correlation-id event:
`{assets?, error?}`. -/
structure AssetMsg where
  error : Option String := none
  assets : Option (List String) := none
deriving DecidableEq, Repr

/-- `ensureAssets(job_spec)`: resolve immediately when the spec references no
assets; otherwise fail on an error reply, a missing asset list, or a count
mismatch, and on success substitute the resolved ids into a clone of the
spec. -/
def ensureAssets (spec : Rec) (reply : AssetMsg) : Except String Rec :=
  match spec.assets with
  | none => .ok spec
  | some requested =>
    match reply.error with
    | some e => .error e
    | none =>
      match reply.assets with
      | none => .error "no asset was found"
      | some found =>
        if found.length != requested.length then .error "asset count mismatch"
        else .ok { spec with assets := some found }

/-- `submitJob(job_spec, shouldRun)`: resolve assets, validate, persist the
job with the original (human-readable) asset names; stop with `{job_id}` when
`shouldRun` is false, otherwise restore the resolved asset ids and create the
execution context. -/
def submitJob (s : CoreState) (spec : Rec) (shouldRun : Bool) (reply : AssetMsg)
    (validate : Rec → Except String Rec) (freshJobId freshExId : Nat)
    (esConn : String)
    (clusterCheck : List (String × List String) → List ModEntry) (now : Nat) :
    CoreState × Except String (Option Nat) :=
  match ensureAssets spec reply with
  | .error e => (s, .error e)
  | .ok parsedAssetJob =>
    match validate parsedAssetJob with
    | .error e => (s, .error e)
    | .ok validJob0 =>
      let validJob := { validJob0 with assets := spec.assets }
      let savedJob := jobCreate validJob freshJobId now
      let s1 := { s with jobStore := s.jobStore ++ [savedJob] }
      if !shouldRun then (s1, .ok savedJob.job_id)
      else
        createExecutionContext s1 { savedJob with assets := validJob0.assets }
          freshExId esConn clusterCheck now

theorem map_upd_append_fresh (l : List Rec) (ex : Rec) (i : Nat) (st : Status)
    (now : Nat) (hex : ex.ex_id = some i)
    (hfresh : ∀ r ∈ l, r.ex_id ≠ some i) :
    (l ++ [ex]).map (updStatus i st now)
      = l ++ [{ ex with status := some st, updated := now }] := by
  rw [List.map_append]
  refine congrArg₂ (· ++ ·) ?_ (by simp [updStatus, hex])
  calc l.map (updStatus i st now)
      = l.map id := by
        refine List.map_congr_left ?_
        intro r hr
        simp [updStatus, hfresh r hr]
    _ = l := List.map_id l

theorem setStatus_pending_append (exStore : List Rec) (ex : Rec) (i : Nat)
    (now : Nat) (hex : ex.ex_id = some i)
    (hfresh : ∀ r ∈ exStore, r.ex_id ≠ some i) :
    setStatus (exStore ++ [ex]) ex (some .pending) now =
      .ok (exStore ++ [{ ex with status := some Status.pending, updated := now }]) := by
  have hany : (exStore ++ [ex]).any (fun r => r.ex_id == some i) = true := by
    simp only [List.any_eq_true]
    exact ⟨ex, by simp, by simp [hex]⟩
  have hcontains : VALID_STATUS.contains Status.pending = true := by decide
  simp only [setStatus, hex, exUpdateStatus, hany, hcontains, if_true]
  rw [map_upd_append_fresh exStore ex i .pending now hex hfresh]
  simp [hex]

/-- Claim C6: the admission decision of `createExecutionContext` places the
execution into the `pending` queue iff the job declares no moderator
dependencies (in which case the cluster service is not consulted) or every
entry returned by `cluster_service.checkModerator` on the defaulted connection
list reports `canRun`; in every other case the execution goes to the
`moderatorPaused` (held) queue. -/
theorem createExecutionContext_admission (s : CoreState) (job : Rec)
    (freshExId : Nat) (esConn : String)
    (clusterCheck : List (String × List String) → List ModEntry) (now : Nat)
    (hfresh : ∀ r ∈ s.exStore, r.ex_id ≠ some freshExId) :
    (job.moderator = none →
      (createExecutionContext s job freshExId esConn clusterCheck now).1.pendingQ
        = s.pendingQ ++ [exCreate job freshExId now] ∧
      (createExecutionContext s job freshExId esConn clusterCheck now).1.heldQ
        = s.heldQ ∧
      (checkModerator esConn clusterCheck job).1 = false) ∧
    (∀ m, job.moderator = some m →
      ((clusterCheck (connectionDefaults esConn m)).all (fun db => db.canRun) = true →
        (createExecutionContext s job freshExId esConn clusterCheck now).1.pendingQ
          = s.pendingQ ++ [exCreate job freshExId now] ∧
        (createExecutionContext s job freshExId esConn clusterCheck now).1.heldQ
          = s.heldQ) ∧
      ((clusterCheck (connectionDefaults esConn m)).all (fun db => db.canRun) = false →
        (createExecutionContext s job freshExId esConn clusterCheck now).1.heldQ
          = s.heldQ ++ [exCreate job freshExId now] ∧
        (createExecutionContext s job freshExId esConn clusterCheck now).1.pendingQ
          = s.pendingQ)) := by
  have hset := setStatus_pending_append s.exStore (exCreate job freshExId now)
    freshExId now rfl hfresh
  constructor
  · intro hmod
    refine ⟨?_, ?_, ?_⟩ <;>
      simp [createExecutionContext, hset, checkModerator, hmod, everyCanRun]
  · intro m hmod
    constructor
    · intro hall
      constructor <;>
        simp [createExecutionContext, hset, checkModerator, hmod, everyCanRun, hall]
    · intro hall
      constructor <;>
        simp [createExecutionContext, hset, checkModerator, hmod, everyCanRun, hall]

/-- Witness for C6 at concrete inputs: a job with a kafka moderator dependency
whose cluster reply reports `canRun: false` is held, not admitted. -/
theorem createExecutionContext_admission_witness :
    (({ moderator := some [("kafka", ["events"])] : Rec }).moderator = none →
      (createExecutionContext ⟨[], [], [], [], []⟩
          { moderator := some [("kafka", ["events"])] : Rec } 1 "default"
          (fun _ => [⟨false⟩]) 4).1.pendingQ
        = [] ++ [exCreate { moderator := some [("kafka", ["events"])] : Rec } 1 4] ∧
      (createExecutionContext ⟨[], [], [], [], []⟩
          { moderator := some [("kafka", ["events"])] : Rec } 1 "default"
          (fun _ => [⟨false⟩]) 4).1.heldQ = [] ∧
      (checkModerator "default" (fun _ => [⟨false⟩])
        { moderator := some [("kafka", ["events"])] : Rec }).1 = false) ∧
    (∀ m, ({ moderator := some [("kafka", ["events"])] : Rec }).moderator = some m →
      (((fun _ => [⟨false⟩] : List (String × List String) → List ModEntry)
          (connectionDefaults "default" m)).all (fun db => db.canRun) = true →
        (createExecutionContext ⟨[], [], [], [], []⟩
            { moderator := some [("kafka", ["events"])] : Rec } 1 "default"
            (fun _ => [⟨false⟩]) 4).1.pendingQ
          = [] ++ [exCreate { moderator := some [("kafka", ["events"])] : Rec } 1 4] ∧
        (createExecutionContext ⟨[], [], [], [], []⟩
            { moderator := some [("kafka", ["events"])] : Rec } 1 "default"
            (fun _ => [⟨false⟩]) 4).1.heldQ = []) ∧
      (((fun _ => [⟨false⟩] : List (String × List String) → List ModEntry)
          (connectionDefaults "default" m)).all (fun db => db.canRun) = false →
        (createExecutionContext ⟨[], [], [], [], []⟩
            { moderator := some [("kafka", ["events"])] : Rec } 1 "default"
            (fun _ => [⟨false⟩]) 4).1.heldQ
          = [] ++ [exCreate { moderator := some [("kafka", ["events"])] : Rec } 1 4] ∧
        (createExecutionContext ⟨[], [], [], [], []⟩
            { moderator := some [("kafka", ["events"])] : Rec } 1 "default"
            (fun _ => [⟨false⟩]) 4).1.pendingQ = [])) :=
  createExecutionContext_admission ⟨[], [], [], [], []⟩
    { moderator := some [("kafka", ["events"])] : Rec } 1 "default"
    (fun _ => [⟨false⟩]) 4 (by intro r hr; simp at hr)

theorem createExecutionContext_spec (s : CoreState) (job : Rec) (freshExId : Nat)
    (esConn : String)
    (clusterCheck : List (String × List String) → List ModEntry) (now : Nat)
    (hfresh : ∀ r ∈ s.exStore, r.ex_id ≠ some freshExId) :
    (createExecutionContext s job freshExId esConn clusterCheck now).1.jobStore
      = s.jobStore ∧
    (createExecutionContext s job freshExId esConn clusterCheck now).1.exStore
      = s.exStore ++ [{ exCreate job freshExId now with
          status := some Status.pending, updated := now }] ∧
    ((everyCanRun (checkModerator esConn clusterCheck job).2 = true ∧
      (createExecutionContext s job freshExId esConn clusterCheck now).1.pendingQ
        = s.pendingQ ++ [exCreate job freshExId now] ∧
      (createExecutionContext s job freshExId esConn clusterCheck now).1.heldQ
        = s.heldQ) ∨
     (everyCanRun (checkModerator esConn clusterCheck job).2 = false ∧
      (createExecutionContext s job freshExId esConn clusterCheck now).1.heldQ
        = s.heldQ ++ [exCreate job freshExId now] ∧
      (createExecutionContext s job freshExId esConn clusterCheck now).1.pendingQ
        = s.pendingQ)) ∧
    (createExecutionContext s job freshExId esConn clusterCheck now).2
      = .ok job.job_id := by
  have hset := setStatus_pending_append s.exStore (exCreate job freshExId now)
    freshExId now rfl hfresh
  by_cases hc : everyCanRun (checkModerator esConn clusterCheck job).2 = true
  · refine ⟨?_, ?_, Or.inl ⟨hc, ?_, ?_⟩, ?_⟩ <;>
      · simp only [createExecutionContext]
        rw [hset]
        simp [hc, exCreate]
  · refine ⟨?_, ?_, Or.inr ⟨Bool.eq_false_iff.mpr hc, ?_, ?_⟩, ?_⟩ <;>
      · simp only [createExecutionContext]
        rw [hset]
        simp [hc, exCreate]

/-- Claim C1: for a job spec that passes asset resolution and validation (and
with the store and moderator modelled as succeeding), `submitJob(spec, true)`
persists exactly one job and exactly one execution, the persisted execution's
`_status` is `pending`, the execution is placed in exactly one of the two
admission queues (`pending` or `moderatorPaused`), and the call resolves with
`{job_id}`. -/
theorem submitJob_run_persists_and_enqueues (s : CoreState) (spec : Rec)
    (reply : AssetMsg) (validate : Rec → Except String Rec)
    (freshJobId freshExId : Nat) (esConn : String)
    (clusterCheck : List (String × List String) → List ModEntry) (now : Nat)
    (pj vj : Rec)
    (hassets : ensureAssets spec reply = .ok pj)
    (hvalid : validate pj = .ok vj)
    (hfreshEx : ∀ r ∈ s.exStore, r.ex_id ≠ some freshExId)
    (hfreshQ : ∀ r ∈ s.pendingQ ++ s.heldQ, r.ex_id ≠ some freshExId) :
    (submitJob s spec true reply validate freshJobId freshExId esConn
        clusterCheck now).1.jobStore =
      s.jobStore ++ [jobCreate { vj with assets := spec.assets } freshJobId now] ∧
    (submitJob s spec true reply validate freshJobId freshExId esConn
        clusterCheck now).1.exStore =
      s.exStore ++ [{ exCreate { jobCreate { vj with assets := spec.assets }
            freshJobId now with assets := vj.assets } freshExId now with
          status := some Status.pending, updated := now }] ∧
    ((exCreate { jobCreate { vj with assets := spec.assets } freshJobId now with
          assets := vj.assets } freshExId now ∈
        (submitJob s spec true reply validate freshJobId freshExId esConn
          clusterCheck now).1.pendingQ ∧
      exCreate { jobCreate { vj with assets := spec.assets } freshJobId now with
          assets := vj.assets } freshExId now ∉
        (submitJob s spec true reply validate freshJobId freshExId esConn
          clusterCheck now).1.heldQ) ∨
     (exCreate { jobCreate { vj with assets := spec.assets } freshJobId now with
          assets := vj.assets } freshExId now ∈
        (submitJob s spec true reply validate freshJobId freshExId esConn
          clusterCheck now).1.heldQ ∧
      exCreate { jobCreate { vj with assets := spec.assets } freshJobId now with
          assets := vj.assets } freshExId now ∉
        (submitJob s spec true reply validate freshJobId freshExId esConn
          clusterCheck now).1.pendingQ)) ∧
    (submitJob s spec true reply validate freshJobId freshExId esConn
        clusterCheck now).2 = .ok (some freshJobId) := by
  have hsub : submitJob s spec true reply validate freshJobId freshExId esConn
      clusterCheck now =
    createExecutionContext
      { s with jobStore := s.jobStore ++
          [jobCreate { vj with assets := spec.assets } freshJobId now] }
      { jobCreate { vj with assets := spec.assets } freshJobId now with
          assets := vj.assets } freshExId esConn clusterCheck now := by
    simp [submitJob, hassets, hvalid]
  have hspec := createExecutionContext_spec
    { s with jobStore := s.jobStore ++
        [jobCreate { vj with assets := spec.assets } freshJobId now] }
    { jobCreate { vj with assets := spec.assets } freshJobId now with
        assets := vj.assets } freshExId esConn clusterCheck now hfreshEx
  obtain ⟨hjs, hes, hq, hres⟩ := hspec
  have hexid : (exCreate { jobCreate { vj with assets := spec.assets } freshJobId
      now with assets := vj.assets } freshExId now).ex_id = some freshExId := rfl
  refine ⟨?_, ?_, ?_, ?_⟩
  · rw [hsub, hjs]
  · rw [hsub, hes]
  · rw [hsub]
    rcases hq with ⟨_, hp, hh⟩ | ⟨_, hh, hp⟩
    · refine Or.inl ⟨by rw [hp]; simp, ?_⟩
      rw [hh]
      intro hmem
      exact hfreshQ _ (List.mem_append_right s.pendingQ hmem) hexid
    · refine Or.inr ⟨by rw [hh]; simp, ?_⟩
      rw [hp]
      intro hmem
      exact hfreshQ _ (List.mem_append_left s.heldQ hmem) hexid
  · rw [hsub, hres]
    simp [jobCreate]

/-- Witness for C1 at concrete inputs: empty initial state, a spec with no
assets and no moderator dependencies, the identity validator; the job and the
pending execution are persisted and the execution is admitted to exactly one
queue, with `{job_id: 1}` returned. -/
theorem submitJob_run_persists_and_enqueues_witness :
    (submitJob ⟨[], [], [], [], []⟩ { name := "J1", workers := 2 : Rec } true ⟨none, none⟩
        Except.ok 1 2 "default" (fun _ => []) 7).1.jobStore =
      [] ++ [jobCreate { { name := "J1", workers := 2 : Rec } with
        assets := ({ name := "J1", workers := 2 : Rec }).assets } 1 7] ∧
    (submitJob ⟨[], [], [], [], []⟩ { name := "J1", workers := 2 : Rec } true ⟨none, none⟩
        Except.ok 1 2 "default" (fun _ => []) 7).1.exStore =
      [] ++ [{ exCreate { jobCreate { { name := "J1", workers := 2 : Rec } with
            assets := ({ name := "J1", workers := 2 : Rec }).assets } 1 7 with
            assets := ({ name := "J1", workers := 2 : Rec }).assets } 2 7 with
          status := some Status.pending, updated := 7 }] ∧
    ((exCreate { jobCreate { { name := "J1", workers := 2 : Rec } with
          assets := ({ name := "J1", workers := 2 : Rec }).assets } 1 7 with
          assets := ({ name := "J1", workers := 2 : Rec }).assets } 2 7 ∈
        (submitJob ⟨[], [], [], [], []⟩ { name := "J1", workers := 2 : Rec } true
          ⟨none, none⟩ Except.ok 1 2 "default" (fun _ => []) 7).1.pendingQ ∧
      exCreate { jobCreate { { name := "J1", workers := 2 : Rec } with
          assets := ({ name := "J1", workers := 2 : Rec }).assets } 1 7 with
          assets := ({ name := "J1", workers := 2 : Rec }).assets } 2 7 ∉
        (submitJob ⟨[], [], [], [], []⟩ { name := "J1", workers := 2 : Rec } true
          ⟨none, none⟩ Except.ok 1 2 "default" (fun _ => []) 7).1.heldQ) ∨
     (exCreate { jobCreate { { name := "J1", workers := 2 : Rec } with
          assets := ({ name := "J1", workers := 2 : Rec }).assets } 1 7 with
          assets := ({ name := "J1", workers := 2 : Rec }).assets } 2 7 ∈
        (submitJob ⟨[], [], [], [], []⟩ { name := "J1", workers := 2 : Rec } true
          ⟨none, none⟩ Except.ok 1 2 "default" (fun _ => []) 7).1.heldQ ∧
      exCreate { jobCreate { { name := "J1", workers := 2 : Rec } with
          assets := ({ name := "J1", workers := 2 : Rec }).assets } 1 7 with
          assets := ({ name := "J1", workers := 2 : Rec }).assets } 2 7 ∉
        (submitJob ⟨[], [], [], [], []⟩ { name := "J1", workers := 2 : Rec } true
          ⟨none, none⟩ Except.ok 1 2 "default" (fun _ => []) 7).1.pendingQ)) ∧
    (submitJob ⟨[], [], [], [], []⟩ { name := "J1", workers := 2 : Rec } true ⟨none, none⟩
        Except.ok 1 2 "default" (fun _ => []) 7).2 = .ok (some 1) :=
  submitJob_run_persists_and_enqueues ⟨[], [], [], [], []⟩
    { name := "J1", workers := 2 : Rec } ⟨none, none⟩ Except.ok 1 2 "default"
    (fun _ => []) 7 { name := "J1", workers := 2 : Rec }
    { name := "J1", workers := 2 : Rec } rfl rfl
    (by intro r hr; simp at hr) (by intro r hr; simp at hr)

/-- The allocator's world: the execution store, the pending queue and the
`isJobBeingAllocated` flag owned by `jobAllocator`'s closure. -/
structure AllocState where
  exStore : List Rec
  pendingQ : List Rec
  busy : Bool := false
  log : List String := []
deriving Repr

/-- One firing of the `allocator` closure returned by `jobAllocator`, with the
cluster outcomes passed in as oracles (`availableWorkers`, whether
`allocateSlicer` resolves, whether `allocateWorkers` resolves). It returns
when busy, when the pending queue is empty, or when fewer than 2 workers are
available; otherwise it dequeues one execution, writes `scheduling`, and:
on slicer-allocation failure logs, clears the busy flag and writes `failed`;
on success writes `initializing` and requests workers, where both the worker
success and worker failure continuations merely clear the busy flag (worker
failure only logs — the status deliberately stays `initializing`). In every
completed branch the source re-invokes `allocator()` to keep draining; the
cleared flag and the shortened queue here are what that re-invocation runs
on. -/
def allocatorOnce (st : AllocState) (availableWorkers : Nat)
    (slicerOk workerOk : Bool) (now : Nat) : AllocState :=
  match st.pendingQ with
  | [] => st
  | ex :: rest =>
    if st.busy = true ∨ availableWorkers < 2 then st
    else
      match setStatus st.exStore ex (some .scheduling) now with
      | .error e =>
        -- the source has no handler on the `scheduling` write: the rejection
        -- is unhandled and the busy flag is never cleared
        { exStore := st.exStore, pendingQ := rest, busy := true,
          log := st.log ++ [e] }
      | .ok storeA =>
        if slicerOk then
          match setStatus storeA ex (some .initializing) now with
          | .error e =>
            let storeB := match setStatus storeA ex (some .failed) now with
              | .ok sb => sb
              | .error _ => storeA
            { exStore := storeB, pendingQ := rest, busy := false,
              log := st.log ++ [e] }
          | .ok storeB =>
            if workerOk then
              { exStore := storeB, pendingQ := rest, busy := false, log := st.log }
            else
              { exStore := storeB, pendingQ := rest, busy := false,
                log := st.log ++
                  ["Workers failed to be allocated, they will be enqueued"] }
        else
          let storeB := match setStatus storeA ex (some .failed) now with
            | .ok sb => sb
            | .error _ => storeA
          { exStore := storeB, pendingQ := rest, busy := false,
            log := st.log ++ ["Failure during worker allocation"] }

theorem contains_valid_status (st : Status) : VALID_STATUS.contains st = true := by
  cases st <;> rfl

theorem mem_valid_status (st : Status) : st ∈ VALID_STATUS := by
  cases st <;> decide

theorem updStatus_ex_id (j : Nat) (st : Status) (now : Nat) (r : Rec) :
    (updStatus j st now r).ex_id = r.ex_id := by
  by_cases h : (r.ex_id == some j) = true <;> simp [updStatus, h]

theorem any_exId_map_upd (store : List Rec) (j i : Nat) (st : Status) (now : Nat) :
    (store.map (updStatus j st now)).any (fun r => r.ex_id == some i)
      = store.any (fun r => r.ex_id == some i) := by
  induction store with
  | nil => rfl
  | cons r t ih => simp [updStatus_ex_id, ih]

theorem exGet_map_upd (store : List Rec) (i : Nat) (st : Status) (now : Nat) :
    exGet (store.map (updStatus i st now)) i
      = (exGet store i).map (fun r => { r with status := some st, updated := now }) := by
  induction store with
  | nil => rfl
  | cons r t ih =>
    by_cases h : (r.ex_id == some i) = true
    · have h2 : ((updStatus i st now r).ex_id == some i) = true := by
        rw [updStatus_ex_id]
        exact h
      simp only [exGet, List.map_cons, List.find?, h2, h]
      simp [updStatus, h]
    · have h2 : ((updStatus i st now r).ex_id == some i) = false := by
        rw [updStatus_ex_id]
        exact Bool.eq_false_iff.mpr h
      simp only [exGet, List.map_cons, List.find?, h2, Bool.eq_false_iff.mpr h]
      exact ih

theorem setStatus_present (store : List Rec) (ex : Rec) (i : Nat) (st : Status)
    (now : Nat) (hid : ex.ex_id = some i)
    (hpres : store.any (fun r => r.ex_id == some i) = true) :
    setStatus store ex (some st) now = .ok (store.map (updStatus i st now)) := by
  simp [setStatus, mem_valid_status st, hid, exUpdateStatus, hpres]

theorem statusOf_upd_present (store : List Rec) (i : Nat) (st : Status) (now : Nat)
    (hpres : store.any (fun r => r.ex_id == some i) = true) :
    statusOf (store.map (updStatus i st now)) i = some st := by
  rw [statusOf, exGet_map_upd]
  obtain ⟨r, hmem, hr⟩ := List.any_eq_true.mp hpres
  obtain ⟨r0, hfind⟩ : ∃ r0, exGet store i = some r0 := by
    cases hfound : exGet store i with
    | none =>
      exfalso
      have := List.find?_eq_none.mp hfound r hmem
      exact this hr
    | some r0 => exact ⟨r0, rfl⟩
  rw [hfind]
  rfl

/-- Claim C2: in the allocator loop, an execution whose slicer allocation
fails has its status set to `failed`, while an execution whose worker
allocation fails after a successful slicer allocation keeps status
`initializing` (it is not set to `failed`); in both cases the busy flag ends
cleared and the pending queue has advanced past the execution, so the
self-drain re-invocation of `allocator()` continues with the next pending
execution. -/
theorem allocator_failure_paths (st : AllocState) (ex : Rec) (rest : List Rec)
    (availableWorkers i now : Nat) (w : Bool)
    (hbusy : st.busy = false) (hq : st.pendingQ = ex :: rest)
    (haw : 2 ≤ availableWorkers) (hid : ex.ex_id = some i)
    (hpres : st.exStore.any (fun r => r.ex_id == some i) = true) :
    (statusOf (allocatorOnce st availableWorkers false w now).exStore i
        = some Status.failed ∧
      (allocatorOnce st availableWorkers false w now).busy = false ∧
      (allocatorOnce st availableWorkers false w now).pendingQ = rest) ∧
    (statusOf (allocatorOnce st availableWorkers true false now).exStore i
        = some Status.initializing ∧
      (allocatorOnce st availableWorkers true false now).busy = false ∧
      (allocatorOnce st availableWorkers true false now).pendingQ = rest) := by
  have hnlt : ¬ (availableWorkers < 2) := Nat.not_lt.mpr haw
  have hsched := setStatus_present st.exStore ex i .scheduling now hid hpres
  have hpresA : (st.exStore.map (updStatus i Status.scheduling now)).any
      (fun r => r.ex_id == some i) = true := by
    rw [any_exId_map_upd]
    exact hpres
  have hfail := setStatus_present (st.exStore.map (updStatus i Status.scheduling now))
    ex i .failed now hid hpresA
  have hinit := setStatus_present (st.exStore.map (updStatus i Status.scheduling now))
    ex i .initializing now hid hpresA
  have e1 : allocatorOnce st availableWorkers false w now =
      { exStore := (st.exStore.map (updStatus i Status.scheduling now)).map
          (updStatus i Status.failed now),
        pendingQ := rest, busy := false,
        log := st.log ++ ["Failure during worker allocation"] } := by
    simp [allocatorOnce, hq, hbusy, hnlt, hsched, hfail]
  have e2 : allocatorOnce st availableWorkers true false now =
      { exStore := (st.exStore.map (updStatus i Status.scheduling now)).map
          (updStatus i Status.initializing now),
        pendingQ := rest, busy := false,
        log := st.log ++ ["Workers failed to be allocated, they will be enqueued"] } := by
    simp [allocatorOnce, hq, hbusy, hnlt, hsched, hinit]
  refine ⟨⟨?_, ?_, ?_⟩, ?_, ?_, ?_⟩
  · rw [e1]
    exact statusOf_upd_present _ i .failed now hpresA
  · rw [e1]
  · rw [e1]
  · rw [e2]
    exact statusOf_upd_present _ i .initializing now hpresA
  · rw [e2]
  · rw [e2]

/-- Witness for C2 at a concrete input: one stored execution `E1` at the head
of the pending queue with 5 available workers; a slicer-allocation failure
leaves it `failed`, a worker-allocation failure leaves it `initializing`, and
in both runs the busy flag is clear and the queue has advanced. -/
theorem allocator_failure_paths_witness :
    (statusOf (allocatorOnce ⟨[{ ex_id := some 1, status := some Status.pending : Rec }],
        [{ ex_id := some 1, status := some Status.pending : Rec }], false, []⟩
        5 false true 3).exStore 1 = some Status.failed ∧
      (allocatorOnce ⟨[{ ex_id := some 1, status := some Status.pending : Rec }],
        [{ ex_id := some 1, status := some Status.pending : Rec }], false, []⟩
        5 false true 3).busy = false ∧
      (allocatorOnce ⟨[{ ex_id := some 1, status := some Status.pending : Rec }],
        [{ ex_id := some 1, status := some Status.pending : Rec }], false, []⟩
        5 false true 3).pendingQ = []) ∧
    (statusOf (allocatorOnce ⟨[{ ex_id := some 1, status := some Status.pending : Rec }],
        [{ ex_id := some 1, status := some Status.pending : Rec }], false, []⟩
        5 true false 3).exStore 1 = some Status.initializing ∧
      (allocatorOnce ⟨[{ ex_id := some 1, status := some Status.pending : Rec }],
        [{ ex_id := some 1, status := some Status.pending : Rec }], false, []⟩
        5 true false 3).busy = false ∧
      (allocatorOnce ⟨[{ ex_id := some 1, status := some Status.pending : Rec }],
        [{ ex_id := some 1, status := some Status.pending : Rec }], false, []⟩
        5 true false 3).pendingQ = []) :=
  allocator_failure_paths
    ⟨[{ ex_id := some 1, status := some Status.pending : Rec }],
      [{ ex_id := some 1, status := some Status.pending : Rec }], false, []⟩
    { ex_id := some 1, status := some Status.pending : Rec } [] 5 1 3 true
    rfl rfl (by decide) rfl (by decide)

/-- `restartExecution(ex_id)`: fetch the execution; a `completed` execution
raises "This job has completed and can not be restarted.", a `scheduling` one
raises "This job is currently being scheduled and can not be restarted.";
otherwise `_recover_execution` is set on the in-memory record and `enqueueJob`
appends it to the tail of the `pending` queue (no store write). The trailing
`.catch` only logs `could not restart execution context` and does not
re-reject, so the promise returned to the caller resolves (with `undefined`)
in every branch. -/
def restartExecution (s : CoreState) (exId : Nat) : CoreState × Except String Unit :=
  match exGet s.exStore exId with
  | none =>
    ({ s with log := s.log ++ ["could not restart execution context"] }, .ok ())
  | some ex =>
    if ex.status = some Status.completed then
      ({ s with log := s.log ++
          ["This job has completed and can not be restarted."] }, .ok ())
    else if ex.status = some Status.scheduling then
      ({ s with log := s.log ++
          ["This job is currently being scheduled and can not be restarted."] }, .ok ())
    else
      ({ s with pendingQ := s.pendingQ ++ [{ ex with recover := true }] }, .ok ())

/-- A state holding a single execution whose status is `completed`. -/
def exCompletedState : CoreState :=
  { jobStore := [],
    exStore := [{ ex_id := some 1, status := some Status.completed }],
    pendingQ := [], heldQ := [], log := [] }

/-- Counterexample to claim C5 as stated: on an execution whose `_status` is
`completed`, `restartExecution` does NOT surface `CompletedNotRestartable` to
the caller — the internal rejection is caught and only logged, so the call
resolves with `undefined` (`Except.ok ()`), refuting "surfacing these errors
to the caller". -/
theorem restartExecution_completed_counterexample :
    statusOf exCompletedState.exStore 1 = some Status.completed ∧
    (restartExecution exCompletedState 1).2 = Except.ok () ∧
    (restartExecution exCompletedState 1).1.log =
      ["This job has completed and can not be restarted."] := by
  refine ⟨rfl, rfl, rfl⟩

/-- Claim C5 (amended): `restartExecution(ex_id)` raises
`CompletedNotRestartable` when the execution is `completed` and
`AlreadyScheduling` when it is `scheduling`, but these rejections are caught
and logged, so the caller always receives a resolved (undefined) result; for
any other status it sets `_recover_execution = true` on the in-memory record,
appends the execution to the tail of the `pending` queue, and leaves the
persisted record (hence its `_status`) unchanged until the allocator picks it
up. -/
theorem restartExecution_amended (s : CoreState) (exId : Nat) (ex : Rec)
    (hget : exGet s.exStore exId = some ex) :
    (ex.status = some Status.completed →
      restartExecution s exId =
        ({ s with log := s.log ++
            ["This job has completed and can not be restarted."] }, .ok ())) ∧
    (ex.status = some Status.scheduling →
      restartExecution s exId =
        ({ s with log := s.log ++
            ["This job is currently being scheduled and can not be restarted."] },
          .ok ())) ∧
    (ex.status ≠ some Status.completed → ex.status ≠ some Status.scheduling →
      restartExecution s exId =
        ({ s with pendingQ := s.pendingQ ++ [{ ex with recover := true }] },
          .ok ())) := by
  refine ⟨?_, ?_, ?_⟩
  · intro h
    simp [restartExecution, hget, h]
  · intro h
    simp [restartExecution, hget, h]
  · intro h1 h2
    simp [restartExecution, hget, h1, h2]

/-- Witness for the amended C5 at a concrete input: a `running` execution is
appended (with the recover flag) to the tail of a nonempty pending queue, the
store fields are untouched, and the call resolves. -/
theorem restartExecution_amended_witness :
    (({ ex_id := some 2, status := some Status.running : Rec }).status
        = some Status.completed →
      restartExecution
          ⟨[], [{ ex_id := some 2, status := some Status.running : Rec }],
            [{ ex_id := some 9 : Rec }], [], []⟩ 2 =
        ({ (⟨[], [{ ex_id := some 2, status := some Status.running : Rec }],
            [{ ex_id := some 9 : Rec }], [], []⟩ : CoreState) with log := [] ++
            ["This job has completed and can not be restarted."] }, .ok ())) ∧
    (({ ex_id := some 2, status := some Status.running : Rec }).status
        = some Status.scheduling →
      restartExecution
          ⟨[], [{ ex_id := some 2, status := some Status.running : Rec }],
            [{ ex_id := some 9 : Rec }], [], []⟩ 2 =
        ({ (⟨[], [{ ex_id := some 2, status := some Status.running : Rec }],
            [{ ex_id := some 9 : Rec }], [], []⟩ : CoreState) with log := [] ++
            ["This job is currently being scheduled and can not be restarted."] },
          .ok ())) ∧
    (({ ex_id := some 2, status := some Status.running : Rec }).status
        ≠ some Status.completed →
     ({ ex_id := some 2, status := some Status.running : Rec }).status
        ≠ some Status.scheduling →
      restartExecution
          ⟨[], [{ ex_id := some 2, status := some Status.running : Rec }],
            [{ ex_id := some 9 : Rec }], [], []⟩ 2 =
        ({ (⟨[], [{ ex_id := some 2, status := some Status.running : Rec }],
            [{ ex_id := some 9 : Rec }], [], []⟩ : CoreState) with pendingQ :=
            [{ ex_id := some 9 : Rec }] ++
              [{ { ex_id := some 2, status := some Status.running : Rec } with
                recover := true }] }, .ok ())) :=
  restartExecution_amended
    ⟨[], [{ ex_id := some 2, status := some Status.running : Rec }],
      [{ ex_id := some 9 : Rec }], [], []⟩ 2
    { ex_id := some 2, status := some Status.running : Rec } rfl

/-- Modelled from the spec: the admission queues' `remove(id)` operation (the
`queue` module itself is not part of the sources); per §4.3 it removes the
entry with the given id field, here keyed by `ex_id`. -/
def removeByExId (q : List Rec) (oid : Option Nat) : List Rec :=
  q.filter (fun r => !(r.ex_id == oid))

/-- Javascript truthiness of the value `checkModerator` resolves with: the
literal boolean `true` is truthy, and ANY array is truthy — including one
whose entries all report `canRun: false`. -/
def modRespTruthy : ModResp → Bool
  | .boolTrue => true
  | .entries _ => true

/-- The `moderatorPausedQueue` re-scan performed by the
`moderate_jobs:resume` handler: for each held execution re-run
`checkModerator`, and if the resolved value is truthy — `if (canRun)` tests
the RAW resolution, with no `_.every` reduction at this call site, so any
resolved entries array qualifies — remove the job (by `ex_id`) from the held
queue and `unshift` it onto the front of the `pending` queue. The in-flight
checks are issued in queue order and resolve in that order under the
single-threaded event-loop model; a job stays held only when its check
rejects (caught and logged), which the total oracle here cannot produce. -/
def moderateResumeRescan (esConn : String)
    (clusterCheck : List (String × List String) → List ModEntry)
    (held pending : List Rec) : List Rec × List Rec :=
  held.foldl (fun acc job =>
    if modRespTruthy (checkModerator esConn clusterCheck job).2 then
      (removeByExId acc.1 job.ex_id, job :: acc.2)
    else acc) (held, pending)

/-- Claim C7 evaluated at its failing input (code bug): a held execution with
a moderator dependency whose re-check resolves `[{canRun: false}]` — the
moderator gate refuses (`_.every` over the entries is false), yet the
`moderate_jobs:resume` handler promotes it anyway, because its `if (canRun)`
tests the raw truthy entries array (the `_.every` reduction exists only at
the `createExecutionContext` admission site). The still-refused execution is
removed from `moderatorHeld` and unshifted onto the front of `pending`,
where the claim says it remains in `moderatorHeld`; indeed every resolved
moderator reply is truthy. -/
theorem moderate_resume_promotes_despite_refusal :
    everyCanRun (checkModerator "es" (fun _ => [ModEntry.mk false])
      { ex_id := some 1, moderator := some [("elasticsearch", ["hot"])] : Rec }).2
      = false ∧
    (moderateResumeRescan "es" (fun _ => [ModEntry.mk false])
        [{ ex_id := some 1, moderator := some [("elasticsearch", ["hot"])] : Rec }]
        [{ ex_id := some 3 : Rec }]).1 = [] ∧
    (moderateResumeRescan "es" (fun _ => [ModEntry.mk false])
        [{ ex_id := some 1, moderator := some [("elasticsearch", ["hot"])] : Rec }]
        [{ ex_id := some 3 : Rec }]).2 =
      [{ ex_id := some 1, moderator := some [("elasticsearch", ["hot"])] : Rec },
       { ex_id := some 3 : Rec }] ∧
    (∀ m : ModResp, modRespTruthy m = true) := by
  refine ⟨rfl, rfl, rfl, ?_⟩
  intro m
  cases m <;> rfl

/-- The record-level filter of `shutdown`'s search query (`_status:pending OR
... OR _status:moderator_paused` over `VALID_STATUS.slice(0,7)`): a record
matches when its status is one of the seven active statuses. -/
def shutdownActiveFilterOpt (r : Rec) : Bool :=
  match r.status with
  | some s => shutdownActiveQuery s
  | none => false

/-- The per-execution loop of `shutdown`: for each active execution, call
`_signalJobStateChange(job.ex_id, 'stop', 'terminated')` (a `stop` cluster
message fanned out to all the execution's nodes, then a `terminated` status
write), threading the store and collecting the messages sent. An execution
record without an `ex_id` is skipped (its signal can only fail). -/
def terminateAll (nodesFor : Nat → List (Nat × Bool)) (now : Nat) :
    List Rec → List Rec → List Rec × List (Nat × String)
  | store, [] => (store, [])
  | store, ex :: rest =>
    match ex.ex_id with
    | none => terminateAll nodesFor now store rest
    | some i =>
      let r1 := signalJobStateChange store ⟨nodesFor i, nodesFor i⟩ i
        Cmd.stop (some .terminated) now
      let r2 := terminateAll nodesFor now r1.1 rest
      (r2.1, r1.2.1 ++ r2.2)

/-- `shutdown()`: search the store for every execution with an active status,
signal each with a `stop` cluster message and a `terminated` status write, and
— in a `finally` block that runs regardless of per-execution failures — shut
both stores down (the two trailing booleans: job store closed, ex store
closed). -/
def shutdown (store : List Rec) (nodesFor : Nat → List (Nat × Bool)) (now : Nat) :
    List Rec × List (Nat × String) × Bool × Bool :=
  let res := terminateAll nodesFor now store (store.filter shutdownActiveFilterOpt)
  (res.1, res.2, true, true)

theorem updStatus_status (j : Nat) (st : Status) (now : Nat) (r : Rec) :
    (updStatus j st now r).status = r.status ∨ (updStatus j st now r).status = some st := by
  by_cases h : (r.ex_id == some j) = true <;> simp [updStatus, h]

theorem mem_map_upd_status_at_id (store : List Rec) (i : Nat) (st : Status)
    (now : Nat) (r1 : Rec) (hmem : r1 ∈ store.map (updStatus i st now))
    (hid : r1.ex_id = some i) : r1.status = some st := by
  obtain ⟨r, hr, hr1⟩ := List.mem_map.mp hmem
  by_cases h : (r.ex_id == some i) = true
  · rw [← hr1]
    simp [updStatus, h]
  · exfalso
    rw [← hr1, updStatus_ex_id] at hid
    exact h (by simp [hid])

theorem exGet_of_any (store : List Rec) (i : Nat)
    (h : store.any (fun r => r.ex_id == some i) = true) :
    ∃ spec, exGet store i = some spec := by
  obtain ⟨r, hmem, hr⟩ := List.any_eq_true.mp h
  cases hfound : exGet store i with
  | none =>
    exact absurd hr (List.find?_eq_none.mp hfound r hmem)
  | some spec => exact ⟨spec, rfl⟩

theorem signal_stop_sent (store : List Rec) (nf : List (Nat × Bool)) (i now : Nat) :
    (signalJobStateChange store ⟨nf, nf⟩ i Cmd.stop (some Status.terminated) now).2.1
      = nf.map (fun n => (n.1, "cluster:job:stop")) := by
  by_cases hall : nf.all (fun n => n.2) = true
  · cases hget : exGet store i with
    | none =>
      simp [signalJobStateChange, notifyCluster, MESSAGE_MAPPING, slicerOnlyFor,
        findNodesForJob, hall, hget]
    | some spec =>
      cases hset : setStatus store spec (some Status.terminated) now with
      | error e =>
        simp [signalJobStateChange, notifyCluster, MESSAGE_MAPPING, slicerOnlyFor,
          findNodesForJob, hall, hget, hset]
      | ok s2 =>
        simp [signalJobStateChange, notifyCluster, MESSAGE_MAPPING, slicerOnlyFor,
          findNodesForJob, hall, hget, hset]
  · simp [signalJobStateChange, notifyCluster, MESSAGE_MAPPING, slicerOnlyFor,
      findNodesForJob, Bool.eq_false_iff.mpr hall]

theorem signal_store_or (store : List Rec) (nf : List (Nat × Bool)) (i now : Nat) :
    (signalJobStateChange store ⟨nf, nf⟩ i Cmd.stop (some Status.terminated) now).1
      = store ∨
    (signalJobStateChange store ⟨nf, nf⟩ i Cmd.stop (some Status.terminated) now).1
      = store.map (updStatus i Status.terminated now) := by
  by_cases hall : nf.all (fun n => n.2) = true
  · cases hget : exGet store i with
    | none =>
      left
      simp [signalJobStateChange, notifyCluster, MESSAGE_MAPPING, slicerOnlyFor,
        findNodesForJob, hall, hget]
    | some spec =>
      have hid : spec.ex_id = some i := (exGet_eq_some store i spec hget).2
      have hany := any_exId_of_exGet store i spec hget
      right
      simp [signalJobStateChange, notifyCluster, MESSAGE_MAPPING, slicerOnlyFor,
        findNodesForJob, hall, hget,
        setStatus_present store spec i .terminated now hid hany]
  · left
    simp [signalJobStateChange, notifyCluster, MESSAGE_MAPPING, slicerOnlyFor,
      findNodesForJob, Bool.eq_false_iff.mpr hall]

theorem signal_store_ok (store : List Rec) (nf : List (Nat × Bool)) (i now : Nat)
    (spec : Rec) (hget : exGet store i = some spec)
    (hok : ∀ n ∈ nf, n.2 = true) :
    (signalJobStateChange store ⟨nf, nf⟩ i Cmd.stop (some Status.terminated) now).1
      = store.map (updStatus i Status.terminated now) := by
  have hall : nf.all (fun n => n.2) = true := by
    simp only [List.all_eq_true]
    intro n hn
    simpa using hok n hn
  have hid : spec.ex_id = some i := (exGet_eq_some store i spec hget).2
  have hany := any_exId_of_exGet store i spec hget
  simp [signalJobStateChange, notifyCluster, MESSAGE_MAPPING, slicerOnlyFor,
    findNodesForJob, hall, hget,
    setStatus_present store spec i .terminated now hid hany]

theorem terminateAll_trace (nf : Nat → List (Nat × Bool)) (now : Nat) :
    ∀ (exs store : List Rec), ∀ r' ∈ (terminateAll nf now store exs).1,
      ∃ r ∈ store, r'.ex_id = r.ex_id ∧
        (r'.status = r.status ∨ r'.status = some Status.terminated) := by
  intro exs
  induction exs with
  | nil =>
    intro store r' hr'
    exact ⟨r', by simpa [terminateAll] using hr', rfl, Or.inl rfl⟩
  | cons ex rest ih =>
    intro store r' hr'
    cases hexid : ex.ex_id with
    | none =>
      simp only [terminateAll, hexid] at hr'
      exact ih store r' hr'
    | some i =>
      simp only [terminateAll, hexid] at hr'
      obtain ⟨r1, hr1mem, hid1, hst1⟩ := ih _ r' hr'
      rcases signal_store_or store (nf i) i now with hcase | hcase
      · rw [hcase] at hr1mem
        exact ⟨r1, hr1mem, hid1, hst1⟩
      · rw [hcase] at hr1mem
        obtain ⟨r0, hr0, hr0eq⟩ := List.mem_map.mp hr1mem
        refine ⟨r0, hr0, ?_, ?_⟩
        · rw [hid1, ← hr0eq, updStatus_ex_id]
        · rcases hst1 with h | h
          · rcases updStatus_status i Status.terminated now r0 with h2 | h2
            · exact Or.inl (by rw [h, ← hr0eq, h2])
            · exact Or.inr (by rw [h, ← hr0eq, h2])
          · exact Or.inr h

theorem terminateAll_keeps_terminated (nf : Nat → List (Nat × Bool)) (now i : Nat) :
    ∀ (exs store : List Rec),
      (∀ r ∈ store, r.ex_id = some i → r.status = some Status.terminated) →
      ∀ r' ∈ (terminateAll nf now store exs).1, r'.ex_id = some i →
        r'.status = some Status.terminated := by
  intro exs
  induction exs with
  | nil =>
    intro store hinv r' hr' hid
    simp only [terminateAll] at hr'
    exact hinv r' hr' hid
  | cons ex rest ih =>
    intro store hinv r' hr' hid
    cases hexid : ex.ex_id with
    | none =>
      simp only [terminateAll, hexid] at hr'
      exact ih store hinv r' hr' hid
    | some j =>
      simp only [terminateAll, hexid] at hr'
      refine ih _ ?_ r' hr' hid
      intro r1 hr1 hid1
      rcases signal_store_or store (nf j) j now with hcase | hcase
      · rw [hcase] at hr1
        exact hinv r1 hr1 hid1
      · rw [hcase] at hr1
        obtain ⟨r0, hr0, hr0eq⟩ := List.mem_map.mp hr1
        rcases updStatus_status j Status.terminated now r0 with h2 | h2
        · rw [← hr0eq, h2]
          refine hinv r0 hr0 ?_
          rw [← updStatus_ex_id j Status.terminated now r0, hr0eq, hid1]
        · rw [← hr0eq, h2]

theorem terminateAll_mem_terminated (nf : Nat → List (Nat × Bool)) (now : Nat)
    (hok : ∀ j n, n ∈ nf j → n.2 = true) :
    ∀ (exs store : List Rec) (ex : Rec) (i : Nat), ex ∈ exs → ex.ex_id = some i →
      store.any (fun r => r.ex_id == some i) = true →
      ∀ r' ∈ (terminateAll nf now store exs).1, r'.ex_id = some i →
        r'.status = some Status.terminated := by
  intro exs
  induction exs with
  | nil =>
    intro store ex i hmem
    exact absurd hmem (List.not_mem_nil ex)
  | cons ex0 rest ih =>
    intro store ex i hmem hid hpres r' hr' hid'
    rcases List.mem_cons.mp hmem with rfl | hmem'
    · simp only [terminateAll, hid] at hr'
      obtain ⟨spec, hget⟩ := exGet_of_any store i hpres
      have hs := signal_store_ok store (nf i) i now spec hget (fun n hn => hok i n hn)
      rw [hs] at hr'
      refine terminateAll_keeps_terminated nf now i rest _ ?_ r' hr' hid'
      intro r1 hr1 hid1
      exact mem_map_upd_status_at_id store i Status.terminated now r1 hr1 hid1
    · cases hexid : ex0.ex_id with
      | none =>
        simp only [terminateAll, hexid] at hr'
        exact ih store ex i hmem' hid hpres r' hr' hid'
      | some j =>
        simp only [terminateAll, hexid] at hr'
        rcases signal_store_or store (nf j) j now with hcase | hcase
        · rw [hcase] at hr'
          exact ih store ex i hmem' hid hpres r' hr' hid'
        · rw [hcase] at hr'
          refine ih _ ex i hmem' hid ?_ r' hr' hid'
          rw [any_exId_map_upd]
          exact hpres

theorem terminateAll_sent (nf : Nat → List (Nat × Bool)) (now : Nat) :
    ∀ (exs store : List Rec) (ex : Rec) (i : Nat), ex ∈ exs → ex.ex_id = some i →
      ∀ n ∈ nf i, (n.1, "cluster:job:stop") ∈ (terminateAll nf now store exs).2 := by
  intro exs
  induction exs with
  | nil =>
    intro store ex i hmem
    exact absurd hmem (List.not_mem_nil ex)
  | cons ex0 rest ih =>
    intro store ex i hmem hid n hn
    rcases List.mem_cons.mp hmem with rfl | hmem'
    · simp only [terminateAll, hid]
      refine List.mem_append_left _ ?_
      rw [signal_stop_sent]
      exact List.mem_map.mpr ⟨n, hn, rfl⟩
    · cases hexid : ex0.ex_id with
      | none =>
        simp only [terminateAll, hexid]
        exact ih store ex i hmem' hid n hn
      | some j =>
        simp only [terminateAll, hexid]
        exact List.mem_append_right _ (ih _ ex i hmem' hid n hn)

/-- Claim C8: `shutdown()` closes both stores in a `finally`-style block
regardless of per-execution outcomes; it only ever rewrites statuses to
`terminated` (never `stopped`); and when every record has an `ex_id` and every
node notification succeeds, it queries every execution with an active status,
sends each of its nodes a `stop` cluster message, and writes `terminated`, so
that afterwards no stored execution has an active status. -/
theorem shutdown_terminalizes_and_closes (store : List Rec)
    (nodesFor : Nat → List (Nat × Bool)) (now : Nat) :
    ((shutdown store nodesFor now).2.2.1 = true ∧
      (shutdown store nodesFor now).2.2.2 = true) ∧
    (∀ r' ∈ (shutdown store nodesFor now).1, ∃ r ∈ store,
      r'.ex_id = r.ex_id ∧
        (r'.status = r.status ∨ r'.status = some Status.terminated)) ∧
    ((∀ r ∈ store, ∃ i, r.ex_id = some i) →
     (∀ j n, n ∈ nodesFor j → n.2 = true) →
      (∀ r' ∈ (shutdown store nodesFor now).1,
        shutdownActiveFilterOpt r' = false) ∧
      (∀ ex ∈ store, shutdownActiveFilterOpt ex = true → ∀ i, ex.ex_id = some i →
        ∀ n ∈ nodesFor i,
          (n.1, "cluster:job:stop") ∈ (shutdown store nodesFor now).2.1)) := by
  refine ⟨⟨rfl, rfl⟩, ?_, ?_⟩
  · intro r' hr'
    exact terminateAll_trace nodesFor now (store.filter shutdownActiveFilterOpt)
      store r' hr'
  · intro hsome hok
    constructor
    · intro r' hr'
      obtain ⟨r, hr, hid, hst⟩ := terminateAll_trace nodesFor now
        (store.filter shutdownActiveFilterOpt) store r' hr'
      rcases hst with hst | hst
      · by_cases hact : shutdownActiveFilterOpt r = true
        · obtain ⟨i, hi⟩ := hsome r hr
          have hpres : store.any (fun x => x.ex_id == some i) = true := by
            simp only [List.any_eq_true]
            exact ⟨r, hr, by simp [hi]⟩
          have hmemf : r ∈ store.filter shutdownActiveFilterOpt :=
            List.mem_filter.mpr ⟨hr, hact⟩
          have hterm := terminateAll_mem_terminated nodesFor now hok
            (store.filter shutdownActiveFilterOpt) store r i hmemf hi hpres r'
            hr' (by rw [hid, hi])
          simp [shutdownActiveFilterOpt, hterm, shutdownActiveQuery, VALID_STATUS]
        · have heq : shutdownActiveFilterOpt r' = shutdownActiveFilterOpt r := by
            simp only [shutdownActiveFilterOpt, hst]
          rw [heq]
          exact Bool.eq_false_iff.mpr hact
      · simp [shutdownActiveFilterOpt, hst, shutdownActiveQuery, VALID_STATUS]
    · intro ex hex hact i hi n hn
      have hmemf : ex ∈ store.filter shutdownActiveFilterOpt :=
        List.mem_filter.mpr ⟨hex, hact⟩
      exact terminateAll_sent nodesFor now (store.filter shutdownActiveFilterOpt)
        store ex i hmemf hi n hn

/-- Witness for C8 at a concrete input (spec scenario 6): `E1` running, `E2`
completed, one acknowledging node; both store-closed flags are set, `E1` ends
`terminated` while `E2` keeps `completed`, no active execution remains, and a
stop message was sent for `E1`. -/
theorem shutdown_terminalizes_and_closes_witness :
    ((shutdown [{ ex_id := some 1, status := some Status.running : Rec },
        { ex_id := some 2, status := some Status.completed : Rec }]
        (fun _ => [(5, true)]) 9).2.2.1 = true ∧
      (shutdown [{ ex_id := some 1, status := some Status.running : Rec },
        { ex_id := some 2, status := some Status.completed : Rec }]
        (fun _ => [(5, true)]) 9).2.2.2 = true) ∧
    (∀ r' ∈ (shutdown [{ ex_id := some 1, status := some Status.running : Rec },
        { ex_id := some 2, status := some Status.completed : Rec }]
        (fun _ => [(5, true)]) 9).1,
      ∃ r ∈ [{ ex_id := some 1, status := some Status.running : Rec },
        { ex_id := some 2, status := some Status.completed : Rec }],
        r'.ex_id = r.ex_id ∧
          (r'.status = r.status ∨ r'.status = some Status.terminated)) ∧
    ((∀ r ∈ [{ ex_id := some 1, status := some Status.running : Rec },
        { ex_id := some 2, status := some Status.completed : Rec }],
        ∃ i, r.ex_id = some i) →
     (∀ j n, n ∈ (fun _ : Nat => [((5 : Nat), true)]) j → n.2 = true) →
      (∀ r' ∈ (shutdown [{ ex_id := some 1, status := some Status.running : Rec },
          { ex_id := some 2, status := some Status.completed : Rec }]
          (fun _ => [(5, true)]) 9).1,
        shutdownActiveFilterOpt r' = false) ∧
      (∀ ex ∈ [{ ex_id := some 1, status := some Status.running : Rec },
          { ex_id := some 2, status := some Status.completed : Rec }],
        shutdownActiveFilterOpt ex = true → ∀ i, ex.ex_id = some i →
        ∀ n ∈ (fun _ : Nat => [((5 : Nat), true)]) i,
          (n.1, "cluster:job:stop") ∈
            (shutdown [{ ex_id := some 1, status := some Status.running : Rec },
              { ex_id := some 2, status := some Status.completed : Rec }]
              (fun _ => [(5, true)]) 9).2.1)) :=
  shutdown_terminalizes_and_closes
    [{ ex_id := some 1, status := some Status.running : Rec },
     { ex_id := some 2, status := some Status.completed : Rec }]
    (fun _ => [(5, true)]) 9

/-- The caller-supplied partial for `updateJob` (a subset of job fields). -/
structure JobUpdate where
  name : Option String := none
  workers : Option Nat := none
  lifecycle : Option String := none
deriving DecidableEq, Repr

/-- The jobs-storage `update(record_id, update_spec)` as invoked by
`updateJob`, where the passed `update_spec` is a FULL record: `_updated` is
set and the record's fields overwrite the stored ones; the backend rejects for
an absent id. -/
def jobStoreUpdateFull (store : List Rec) (i : Nat) (record : Rec) (now : Nat) :
    Except String (List Rec) :=
  if store.any (fun r => r.job_id == some i) then
    .ok (store.map (fun r =>
      if r.job_id == some i then { record with updated := now } else r))
  else
    .error "record not found"

/-- `updateJob(job_id, job)`: the source fetches the job and calls
`job_store.update(job_id, job)` from a `.then(function(job){...})` whose
parameter SHADOWS the caller-supplied partial, so the record written back is
the fetched record itself and the caller's argument (kept here to mirror the
source signature) is never used; the trailing `.catch` only logs, so the call
resolves even on a missing job or a store failure. -/
def updateJob (store : List Rec) (jobId : Nat) (partialUpdate : JobUpdate)
    (now : Nat) : List Rec × Except String Unit :=
  match jobGet store jobId with
  | none => (store, .ok ())
  | some fetched =>
    match jobStoreUpdateFull store jobId fetched now with
    | .error _ => (store, .ok ())
    | .ok store2 => (store2, .ok ())

/-- Claim C9 evaluated at the failing input (code bug): with a stored job
`{job_id: 1, name: "old"}` and the caller partial `{name: "new"}`,
`updateJob` writes the fetched record back — the stored name stays `"old"`
and only `_updated` moves — instead of applying the caller's partial; and a
missing `job_id` resolves instead of surfacing `NotFound`. -/
theorem updateJob_shadowed_partial_bug :
    (updateJob [{ job_id := some 1, context := "job", name := "old" : Rec }] 1
        ⟨some "new", none, none⟩ 9).1 =
      [{ job_id := some 1, context := "job", name := "old", updated := 9 : Rec }] ∧
    (updateJob [{ job_id := some 1, context := "job", name := "old" : Rec }] 1
        ⟨some "new", none, none⟩ 9).2 = .ok () ∧
    (updateJob [{ job_id := some 1, context := "job", name := "old" : Rec }] 2
        ⟨some "new", none, none⟩ 9).2 = .ok () := by
  refine ⟨rfl, rfl, rfl⟩

end Teraslice
